import Mathlib

/-!
Verification development for the `axongate-engine` AI inference gateway.

The Rust sources are shallowly embedded as executable Lean definitions:

* strings and byte buffers become `List Char` / `String`;
* `serde_json::Value` becomes the inductive `Json` together with a
  recursive-descent parser modelling `serde_json::from_str` on the JSON
  fragment the gateway actually inspects (objects, arrays, strings,
  integers, booleans, null) and a serializer modelling
  `serde_json::Value::to_string` (whose maps are `BTreeMap`s, hence
  alphabetically ordered keys);
* `std::time::Instant` becomes `Nat`;
* stateful loops become fuelled structural recursions, invoked with fuel
  large enough that the fuel never runs out on the given buffer;
* the fallible HTTP world is abstracted by oracles (`Nat → ApiOutcome`,
  per-candidate forwarding outcomes) so that the control flow around them
  can be verified.

Each subsystem section names the Rust source file and function it embeds.
-/

set_option maxRecDepth 100000

namespace AxonGate

/-! ## Character and list-of-char utilities (models of Rust `str` methods) -/

/-- ASCII whitespace recognised by Rust `char::is_whitespace` as it occurs in
SSE streams (space, tab, newline, carriage return). -/
def isWsChar (c : Char) : Bool :=
  c = ' ' || c = '\t' || c = '\n' || c = '\r'

/-- Model of `str::trim_start` on a character list. -/
def trimLeftL (l : List Char) : List Char :=
  l.dropWhile isWsChar

/-- Model of `str::trim` on a character list. -/
def trimL (l : List Char) : List Char :=
  ((trimLeftL l).reverse.dropWhile isWsChar).reverse

/-- Model of `str::strip_prefix`. -/
def stripPrefixL : List Char → List Char → Option (List Char)
  | [], l => some l
  | _ :: _, [] => none
  | p :: ps, c :: cs => if p = c then stripPrefixL ps cs else none

/-- Boolean prefix test. -/
def isPrefixL : List Char → List Char → Bool
  | [], _ => true
  | _ :: _, [] => false
  | p :: ps, c :: cs => p = c && isPrefixL ps cs

/-- Model of `str::contains` (substring containment). -/
def containsSubL (needle : List Char) : List Char → Bool
  | [] => isPrefixL needle []
  | c :: cs => isPrefixL needle (c :: cs) || containsSubL needle cs

/-- Model of `str::ends_with`. -/
def endsWithL (suffix l : List Char) : Bool :=
  isPrefixL suffix.reverse l.reverse

/-- Model of `str::trim_end_matches('/')`: removes EVERY trailing occurrence. -/
def trimEndMatchesSlash (l : List Char) : List Char :=
  (l.reverse.dropWhile (· = '/')).reverse

/-- Split off the first line of a buffer: returns the characters before the
first `'\n'` and the characters after it (the newline is consumed), or `none`
when the buffer holds no newline.  This models the
`buffer.iter().position(|&b| b == b'\n')` / `split_to(pos + 1)` idiom of the
streaming translators, with the final `trim` of the caller removing the
newline that Rust keeps inside the split-off line. -/
def splitLine : List Char → Option (List Char × List Char)
  | [] => none
  | '\n' :: rest => some ([], rest)
  | c :: rest => (splitLine rest).map fun p => (c :: p.1, p.2)

/-- Split off the first SSE event of a buffer: characters before the first
`"\n\n"` and characters after it, modelling `buffer.find("\n\n")` in the
usage collector. -/
def splitDoubleNL : List Char → Option (List Char × List Char)
  | [] => none
  | '\n' :: '\n' :: rest => some ([], rest)
  | c :: rest => (splitDoubleNL rest).map fun p => (c :: p.1, p.2)

/-- All pieces of a buffer split at `'\n'`, keeping empty pieces. -/
def splitAllNL : List Char → List (List Char)
  | [] => [[]]
  | '\n' :: rest => [] :: splitAllNL rest
  | c :: rest =>
    match splitAllNL rest with
    | [] => [[c]]
    | p :: ps => (c :: p) :: ps

/-- Model of Rust `str::lines()`: split at `'\n'`, the final line ending being
optional, and a trailing `'\r'` of each line removed. -/
def linesOf (l : List Char) : List (List Char) :=
  let ps := if endsWithL ['\n'] l then (splitAllNL l).dropLast else splitAllNL l
  (if l = [] then [] else ps).map fun p =>
    if endsWithL ['\r'] p then p.dropLast else p

/-- Lexicographic (code-point, hence UTF-8 byte) order on strings; the order
of `std::collections::BTreeMap<String, _>` keys. -/
def lexLtL : List Char → List Char → Bool
  | [], [] => false
  | [], _ :: _ => true
  | _ :: _, [] => false
  | a :: as, b :: bs => if a < b then true else if b < a then false else lexLtL as bs

/-- `BTreeMap` string key order. -/
def strLtB (a b : String) : Bool :=
  lexLtL a.data b.data

/-! ## JSON values: model of `serde_json::Value`

Only the fragment the gateway inspects is modelled: numbers are integers
(all the token counters the code reads go through `as_i64`). -/

inductive Json where
  | null : Json
  | bool (b : Bool) : Json
  | num (n : Int) : Json
  | str (s : String) : Json
  | arr (elems : List Json) : Json
  | obj (fields : List (String × Json)) : Json
  deriving Repr, Inhabited

/-- First field with the given key, modelling `Value::get(key)` on objects
(`None` on non-objects). -/
def Json.getKey (j : Json) (k : String) : Option Json :=
  match j with
  | .obj fields => (fields.find? fun f => f.1 = k).map (·.2)
  | _ => none

/-- Model of `Value::index(&str)` (the `json["k"]` form): field value on
objects, `Null` otherwise. -/
def Json.idx (j : Json) (k : String) : Json :=
  (j.getKey k).getD .null

/-- Model of `Value::as_str`. -/
def Json.asStr : Json → Option String
  | .str s => some s
  | _ => none

/-- Model of `Value::as_i64` on the integer fragment. -/
def Json.asInt : Json → Option Int
  | .num n => some n
  | _ => none

/-- Model of `Value::as_array`. -/
def Json.asArr : Json → Option (List Json)
  | .arr xs => some xs
  | _ => none

/-- Model of `Value::is_null`. -/
def Json.isNull : Json → Bool
  | .null => true
  | _ => false

/-- Insert a field into an alphabetically sorted field list, replacing an
existing binding: `BTreeMap::insert`. -/
def insertField (k : String) (v : Json) : List (String × Json) → List (String × Json)
  | [] => [(k, v)]
  | (k', v') :: rest =>
    if strLtB k k' then (k, v) :: (k', v') :: rest
    else if k = k' then (k, v) :: rest
    else (k', v') :: insertField k v rest

/-- Build an object the way the `serde_json::json!` macro does: successive
`BTreeMap` inserts, so the stored (and later serialized) field order is
alphabetical regardless of the order written in the macro. -/
def Json.mkObj (fields : List (String × Json)) : Json :=
  .obj (fields.foldl (fun acc f => insertField f.1 f.2 acc) [])

/-! ### JSON parsing (model of `serde_json::from_str::<Value>`) -/

/-- Skip leading JSON whitespace. -/
def skipWs (l : List Char) : List Char :=
  l.dropWhile fun c => c = ' ' || c = '\t' || c = '\n' || c = '\r'

/-- Unescape one escaped character of a JSON string literal (`\"`, `\\`,
`\/` map to themselves; `\n`, `\t`, `\r` to their control characters). -/
def escUnmap (e : Char) : Option Char :=
  if e = '"' ∨ e = '\\' ∨ e = '/' then some e
  else if e = 'n' then some '\n'
  else if e = 't' then some '\t'
  else if e = 'r' then some '\r'
  else none

/-- Parse the body of a JSON string literal after the opening quote.
Handles the simple escapes; `\u` escapes are outside the modelled fragment
(no input the gateway inspects contains them). -/
def parseStrBody : List Char → Option (List Char × List Char)
  | [] => none
  | '"' :: rest => some ([], rest)
  | '\\' :: e :: rest =>
    match escUnmap e, parseStrBody rest with
    | some c, some p => some (c :: p.1, p.2)
    | _, _ => none
  | c :: rest =>
    match parseStrBody rest with
    | some p => some (c :: p.1, p.2)
    | none => none

/-- Digit run to a natural number. -/
def digitsToNat (acc : Nat) : List Char → Nat × List Char
  | [] => (acc, [])
  | c :: rest =>
    if c.isDigit then digitsToNat (acc * 10 + (c.toNat - '0'.toNat)) rest
    else (acc, c :: rest)

/-- Parse an integer JSON number (optionally signed).  Fails when a fraction
or exponent follows: floating-point numbers are outside the modelled
fragment (every number the gateway reads goes through `as_i64`). -/
def parseIntNum (l : List Char) : Option (Json × List Char) :=
  let (neg, l') := match l with
    | '-' :: rest => (true, rest)
    | _ => (false, l)
  match l' with
  | c :: _ =>
    if c.isDigit then
      let (n, rest) := digitsToNat 0 l'
      match rest with
      | '.' :: _ => none
      | 'e' :: _ => none
      | 'E' :: _ => none
      | _ => some (.num (if neg then -(n : Int) else (n : Int)), rest)
    else none
  | [] => none

mutual

/-- Fuelled recursive-descent JSON value parser.  The keyword literals are
recognised with `stripPrefixL`. -/
def parseVal : Nat → List Char → Option (Json × List Char)
  | 0, _ => none
  | fuel + 1, l =>
    let l := skipWs l
    if let some rest := stripPrefixL "null".data l then some (.null, rest)
    else if let some rest := stripPrefixL "true".data l then some (.bool true, rest)
    else if let some rest := stripPrefixL "false".data l then some (.bool false, rest)
    else
      match l with
      | [] => none
      | '"' :: rest => (parseStrBody rest).map fun p => (.str (String.mk p.1), p.2)
      | '[' :: rest =>
        (match skipWs rest with
         | ']' :: rest' => some (.arr [], rest')
         | _ => (parseArrItems fuel rest).map fun p => (.arr p.1, p.2))
      | '{' :: rest =>
        (match skipWs rest with
         | '}' :: rest' => some (.obj [], rest')
         | _ => (parseObjItems fuel rest).map fun p => (.obj p.1, p.2))
      | l' => parseIntNum l'

/-- Array items after `[` (at least one item). -/
def parseArrItems : Nat → List Char → Option (List Json × List Char)
  | 0, _ => none
  | fuel + 1, l =>
    (parseVal fuel l).bind fun (v, rest) =>
      match skipWs rest with
      | ',' :: rest' => (parseArrItems fuel rest').map fun p => (v :: p.1, p.2)
      | ']' :: rest' => some ([v], rest')
      | _ => none

/-- Object fields after `{` (at least one field). -/
def parseObjItems : Nat → List Char → Option (List (String × Json) × List Char)
  | 0, _ => none
  | fuel + 1, l =>
    match skipWs l with
    | '"' :: rest =>
      (parseStrBody rest).bind fun (k, rest₁) =>
        match skipWs rest₁ with
        | ':' :: rest₂ =>
          (parseVal fuel rest₂).bind fun (v, rest₃) =>
            match skipWs rest₃ with
            | ',' :: rest₄ =>
              (parseObjItems fuel rest₄).map fun p =>
                ((String.mk k, v) :: p.1, p.2)
            | '}' :: rest₄ => some ([(String.mk k, v)], rest₄)
            | _ => none
        | _ => none
    | _ => none

end

/-- Model of `serde_json::from_str::<Value>`: parse one value and require
only whitespace to remain. -/
def parseJson (s : String) : Option Json :=
  (parseVal (s.length + 1) s.data).bind fun (v, rest) =>
    if skipWs rest = [] then some v else none

/-! ### JSON serialization (model of `serde_json::Value::to_string`) -/

/-- Escape one character of a JSON string the way serde does for the
characters occurring in the modelled streams. -/
def escChar (c : Char) : List Char :=
  if c = '"' then ['\\', '"']
  else if c = '\\' then ['\\', '\\']
  else if c = '\n' then ['\\', 'n']
  else if c = '\t' then ['\\', 't']
  else if c = '\r' then ['\\', 'r']
  else [c]

/-- Serialize a JSON string literal. -/
def renderStr (s : String) : String :=
  String.mk ('"' :: (s.data.flatMap escChar) ++ ['"'])

mutual

/-- Model of `Value::to_string` (compact form, fields in stored order — for
values built with `Json.mkObj` that is serde's alphabetical `BTreeMap`
order). -/
def renderJson : Json → String
  | .null => "null"
  | .bool true => "true"
  | .bool false => "false"
  | .num n => toString n
  | .str s => renderStr s
  | .arr xs => "[" ++ renderArr xs ++ "]"
  | .obj fs => "\x7b" ++ renderFields fs ++ "\x7d"

/-- Comma-separated array elements. -/
def renderArr : List Json → String
  | [] => ""
  | [x] => renderJson x
  | x :: y :: rest => renderJson x ++ "," ++ renderArr (y :: rest)

/-- Comma-separated object fields. -/
def renderFields : List (String × Json) → String
  | [] => ""
  | [(k, v)] => renderStr k ++ ":" ++ renderJson v
  | (k, v) :: f :: rest => renderStr k ++ ":" ++ renderJson v ++ "," ++ renderFields (f :: rest)

end

/-! ## Data model (src/models/mod.rs) -/

/-- `TargetProtocol` from src/models/mod.rs. -/
inductive TargetProtocolL where
  | openAI : TargetProtocolL
  | anthropic : TargetProtocolL
  | custom (name : String) : TargetProtocolL
  deriving Repr, DecidableEq, Inhabited

/-- `RouteConfig` from src/models/mod.rs. -/
structure RouteConfigL where
  token : String
  model : String
  apiEndpoint : String
  protocol : TargetProtocolL
  modelId : String
  providerId : String
  providerTokenId : String
  deriving Repr, DecidableEq, Inhabited

/-- `RouteResponse` from src/models/mod.rs (wire shape of `/v1/route/resolve`). -/
structure RouteResponseL where
  code : Int
  success : Bool
  message : String
  data : List RouteConfigL
  deriving Repr, DecidableEq, Inhabited

/-- `UsageEvent` from src/models/mod.rs. -/
structure UsageEventL where
  requestId : String
  token : String
  model : String
  api : String
  inputTokens : Int
  outputTokens : Int
  modelId : String
  providerId : String
  providerTokenId : String
  deriving Repr, DecidableEq, Inhabited

/-- `ErrorEvent` from src/models/mod.rs. -/
structure ErrorEventL where
  token : String
  model : String
  api : String
  msg : String
  providerTokenId : Option String
  deriving Repr, DecidableEq, Inhabited

/-! ## Route cache (src/cache/mod.rs)

`Instant` is modelled as `Nat`; the `DashMap` as a function map keyed by the
`"{token}:{model}"` string; per-key atomicity lets each operation be a pure
state transformer. -/

/-- `CacheEntry` from src/cache/mod.rs. -/
structure CacheEntryL where
  configs : List RouteConfigL
  createdAt : Nat
  expiresAt : Nat
  hardExpiresAt : Nat
  deriving Repr, DecidableEq, Inhabited

/-- The `DashMap<String, CacheEntry>` storage. -/
def CacheMap : Type := String → Option CacheEntryL

/-- `Cache::make_key`. -/
def makeKey (token model : String) : String :=
  token ++ ":" ++ model

/-- `DashMap::insert`. -/
def mapInsert (m : CacheMap) (k : String) (e : CacheEntryL) : CacheMap :=
  fun k' => if k' = k then some e else m k'

/-- `DashMap::remove`. -/
def mapRemove (m : CacheMap) (k : String) : CacheMap :=
  fun k' => if k' = k then none else m k'

/-- The entry built by `Cache::set`:
`created_at = now`, `hard_expires_at = now + max_lifetime`,
`expires_at = min(now + ttl, now + max_lifetime)`. -/
def setEntry (now ttl maxLifetime : Nat) (configs : List RouteConfigL) : CacheEntryL :=
  { configs := configs
    createdAt := now
    hardExpiresAt := now + maxLifetime
    expiresAt := min (now + ttl) (now + maxLifetime) }

/-- `Cache::set`. -/
def cacheSet (m : CacheMap) (token model : String) (configs : List RouteConfigL)
    (now ttl maxLifetime : Nat) : CacheMap :=
  mapInsert m (makeKey token model) (setEntry now ttl maxLifetime configs)

/-- The sliding refresh performed by `Cache::get` on a live entry:
`expires_at := min(now + ttl, hard_expires_at)`. -/
def refreshEntry (e : CacheEntryL) (now ttl : Nat) : CacheEntryL :=
  { e with expiresAt := min (now + ttl) e.hardExpiresAt }

/-- `Cache::get`: expiry check (either expiry passed deletes the entry and
misses), then sliding refresh and a snapshot copy of the config list. -/
def cacheGet (m : CacheMap) (token model : String) (now ttl : Nat) :
    CacheMap × Option (List RouteConfigL) :=
  let key := makeKey token model
  match m key with
  | none => (m, none)
  | some e =>
    if now ≥ e.hardExpiresAt then (mapRemove m key, none)
    else if now ≥ e.expiresAt then (mapRemove m key, none)
    else
      let e' := refreshEntry e now ttl
      (mapInsert m key e', some e'.configs)

/-- The retain predicate of `Cache::remove_config`: keep a config iff its
`(token, api_endpoint)` pair differs from the failed config's pair. -/
def keepConfig (failed c : RouteConfigL) : Bool :=
  c.token ≠ failed.token || c.apiEndpoint ≠ failed.apiEndpoint

/-- `Cache::remove_config`: retain the non-matching configs; if the retained
list is empty, remove the whole entry (after releasing the per-entry lock). -/
def removeConfigC (m : CacheMap) (token model : String) (failed : RouteConfigL) : CacheMap :=
  let key := makeKey token model
  match m key with
  | none => m
  | some e =>
    let retained := e.configs.filter (keepConfig failed)
    if retained.isEmpty then mapRemove m key
    else mapInsert m key { e with configs := retained }

/-- The invariant of §8 of the spec:
`expires_at ≤ hard_expires_at` and `created_at ≤ expires_at`. -/
def entryInv (e : CacheEntryL) : Prop :=
  e.expiresAt ≤ e.hardExpiresAt ∧ e.createdAt ≤ e.expiresAt

/-! ## Forwarder URL composition (src/proxy/mod.rs, `send_request`) -/

/-- The path selected by `send_request` from (custom_path, protocol) and the
already-trimmed base URL. -/
def selectApiPath (baseUrl : String) (customPath : Option String)
    (protocol : TargetProtocolL) : String :=
  match customPath with
  | some path =>
    if path = "/v1/responses" then
      if endsWithL "/v1".data baseUrl.data then "/responses" else "/v1/responses"
    else path
  | none =>
    match protocol with
    | .openAI =>
      if endsWithL "/v1".data baseUrl.data then "/chat/completions" else "/v1/chat/completions"
    | .anthropic =>
      if endsWithL "/v1".data baseUrl.data then "/messages" else "/v1/messages"
    | .custom _ =>
      if endsWithL "/v1".data baseUrl.data then "/chat/completions" else "/v1/chat/completions"

/-- The upstream URL composed by `send_request`:
`api_endpoint.trim_end_matches('/')` (removing EVERY trailing slash)
followed by the selected path. -/
def composeUrl (apiEndpoint : String) (customPath : Option String)
    (protocol : TargetProtocolL) : String :=
  let baseUrl := String.mk (trimEndMatchesSlash apiEndpoint.data)
  baseUrl ++ selectApiPath baseUrl customPath protocol

/-- Model of `str::strip_suffix`-style single trim: remove ONE trailing
slash if present.  This follows the spec's words ("Trim one trailing `/`
from `api_endpoint`"), for comparison with the source's `trim_end_matches`. -/
def trimOneSlash (l : List Char) : List Char :=
  if endsWithL ['/'] l then l.dropLast else l

/-- URL composition as the spec describes it: trim ONE trailing slash, then
the same path-selection rule.  Second definition for the refinement claim
C8; compare with `composeUrl`. -/
def composeUrlSpecOne (apiEndpoint : String) (customPath : Option String)
    (protocol : TargetProtocolL) : String :=
  let baseUrl := String.mk (trimOneSlash apiEndpoint.data)
  baseUrl ++ selectApiPath baseUrl customPath protocol

/-! ## Route resolver retry loop (src/router/mod.rs, `fetch_from_business_api`)

The business-API HTTP call is abstracted by an oracle `Nat → ApiOutcome`
giving the outcome of the i-th attempt (attempt 0 is the initial try). -/

/-- Outcome of one POST to `{base_url}/v1/route/resolve`: a transport error
(`reqwest` `Err`), or a response with a status code and — for the JSON body
read on success statuses — the parse result (`none` models a body that fails
to deserialize as `RouteResponse`). -/
inductive ApiOutcome where
  | transport : ApiOutcome
  | response (status : Nat) (parsed : Option RouteResponseL) : ApiOutcome
  deriving Repr, DecidableEq, Inhabited

/-- `reqwest::StatusCode::is_success` (200..=299). -/
def isSuccessStatus (s : Nat) : Bool :=
  200 ≤ s && s ≤ 299

/-- `reqwest::StatusCode::is_server_error` (500..=599). -/
def isServerErrorStatus (s : Nat) : Bool :=
  500 ≤ s && s ≤ 599

/-- Error kinds `fetch_from_business_api` can return. -/
inductive FetchError where
  | http : FetchError
  | routing (msg : String) : FetchError
  deriving Repr, DecidableEq, Inhabited

/-- Shorthand for the loop's result type. -/
def FetchResult : Type := Except FetchError (List RouteConfigL)

/-- The answer produced once the loop stops at a given outcome, straight from
the branch bodies of the source loop. -/
def finalAnswer (out : ApiOutcome) : FetchResult :=
  match out with
  | .transport => .error .http
  | .response s parsed =>
    if isSuccessStatus s then
      match parsed with
      | none => .error .http
      | some r =>
        if r.success then .ok r.data
        else .error (.routing ("Business API returned error: " ++ r.message))
    else .error (.routing ("Business API returned status: " ++ toString s))

/-- An outcome the loop may retry on: transport error or 5xx status. -/
def retryableOutcome : ApiOutcome → Bool
  | .transport => true
  | .response s _ => isServerErrorStatus s

/-- The retry loop.  `i` is the current value of `retry_count` (the attempt
index); every retry sleeps `100ms * (i+1)` and the sleep durations are
returned as a trace alongside the result.  Fuel is structural; the top-level
entry point supplies `maxRetries + 1` which is never exhausted because each
retry requires `i < maxRetries`. -/
def fetchGo (o : Nat → ApiOutcome) (maxRetries : Nat) : Nat → Nat → List Nat × FetchResult
  | 0, i => ([], finalAnswer (o i))
  | fuel + 1, i =>
    match o i with
    | .transport =>
      if i < maxRetries then
        let r := fetchGo o maxRetries fuel (i + 1)
        (100 * (i + 1) :: r.1, r.2)
      else ([], .error .http)
    | .response s parsed =>
      if isSuccessStatus s then
        ([], match parsed with
             | none => .error .http
             | some r =>
               if r.success then .ok r.data
               else .error (.routing ("Business API returned error: " ++ r.message)))
      else if isServerErrorStatus s && decide (i < maxRetries) then
        let r := fetchGo o maxRetries fuel (i + 1)
        (100 * (i + 1) :: r.1, r.2)
      else ([], .error (.routing ("Business API returned status: " ++ toString s)))

/-- `fetch_from_business_api`: run the loop from attempt 0, returning the
sleep trace (milliseconds) and the result. -/
def fetchFromBusinessApi (o : Nat → ApiOutcome) (maxRetries : Nat) : List Nat × FetchResult :=
  fetchGo o maxRetries (maxRetries + 1) 0

/-- The attempt index at which the loop stops. -/
def stopIdxGo (o : Nat → ApiOutcome) (maxRetries : Nat) : Nat → Nat → Nat
  | 0, i => i
  | fuel + 1, i =>
    if retryableOutcome (o i) && decide (i < maxRetries) then stopIdxGo o maxRetries fuel (i + 1)
    else i

/-- Stop index from attempt 0. -/
def stopIdx (o : Nat → ApiOutcome) (maxRetries : Nat) : Nat :=
  stopIdxGo o maxRetries (maxRetries + 1) 0

/-! ## Error kinds, client-error classification and failover pipeline
(src/error/mod.rs, src/proxy/mod.rs `is_client_error`, src/main.rs) -/

/-- Gateway error as seen by the failover loop: `Error::Proxy(msg)` carries
the upstream status and body text; every other kind (`Http`, `Routing`,
`Serialization`, ...) is collapsed into `other` with its display string,
because `is_client_error` and `create_error_response` treat all non-`Proxy`
kinds alike. -/
inductive GErrorL where
  | proxy (msg : String) : GErrorL
  | other (display : String) : GErrorL
  deriving Repr, DecidableEq, Inhabited

/-- `Error`'s `Display` (`thiserror`): `Proxy` prefixes "Proxy error: ";
other kinds display their own strings, abstracted as stored. -/
def GErrorL.displayStr : GErrorL → String
  | .proxy msg => "Proxy error: " ++ msg
  | .other d => d

/-- `ProxyForwarder::is_client_error`: true iff the error is `Error::Proxy`
and its message contains one of "400", "401", "403", "404", "422", "429"
as a substring; every other error kind yields false. -/
def isClientError : GErrorL → Bool
  | .proxy msg =>
    containsSubL "400".data msg.data || containsSubL "401".data msg.data ||
    containsSubL "403".data msg.data || containsSubL "404".data msg.data ||
    containsSubL "422".data msg.data || containsSubL "429".data msg.data
  | .other _ => false

/-- An HTTP response handed to the inbound client. -/
structure PResponseL where
  status : Nat
  body : String
  deriving Repr, DecidableEq, Inhabited

/-- `error_response`: gateway-originated error body
`{"error":{"message":<text>,"type":"gateway_error"}}`. -/
def errorResponse (status : Nat) (message : String) : PResponseL :=
  { status := status
    body := renderJson (Json.mkObj
      [("error", Json.mkObj [("message", .str message), ("type", .str "gateway_error")])]) }

/-- First index at which `needle` occurs in the list, modelling `str::find`. -/
def findSubIdx (needle : List Char) : List Char → Option Nat
  | [] => if isPrefixL needle [] then some 0 else none
  | c :: cs =>
    if isPrefixL needle (c :: cs) then some 0
    else (findSubIdx needle cs).map (· + 1)

/-- `create_error_response` from src/main.rs: substring-status oracle mapping
a `Proxy` message to 400/401/403/404/422/429 (the 400 branch passing the
upstream body through), everything else to 500. -/
def createErrorResponse (e : GErrorL) : PResponseL :=
  match e with
  | .proxy msg =>
    if containsSubL "400".data msg.data then
      match findSubIdx ": ".data msg.data with
      | some start => { status := 400, body := String.mk (msg.data.drop (start + 2)) }
      | none => errorResponse 400 msg
    else if containsSubL "401".data msg.data then errorResponse 401 "Unauthorized"
    else if containsSubL "403".data msg.data then errorResponse 403 "Forbidden"
    else if containsSubL "404".data msg.data then errorResponse 404 "Not Found"
    else if containsSubL "422".data msg.data then errorResponse 422 msg
    else if containsSubL "429".data msg.data then errorResponse 429 "Too Many Requests"
    else errorResponse 500 msg
  | .other _ => errorResponse 500 e.displayStr

/-- `extract_usage_from_response` from src/main.rs: read the `usage` object
of a native response body, with protocol-specific field names. -/
def extractUsageFromResponse (protocol : TargetProtocolL) (body : String) :
    Option (Int × Int) :=
  match parseJson body with
  | none => none
  | some v =>
    match v.getKey "usage" with
    | none => none
    | some usage =>
      match protocol with
      | .openAI | .custom _ =>
        match (usage.getKey "prompt_tokens").bind Json.asInt,
              (usage.getKey "completion_tokens").bind Json.asInt with
        | some input, some output => some (input, output)
        | _, _ => none
      | .anthropic =>
        match (usage.getKey "input_tokens").bind Json.asInt,
              (usage.getKey "output_tokens").bind Json.asInt with
        | some input, some output => some (input, output)
        | _, _ => none

/-- The `ErrorEvent` reported by the failover loop for a failed candidate. -/
def mkErrorEvent (cfg : RouteConfigL) (e : GErrorL) : ErrorEventL :=
  { token := cfg.token
    model := cfg.model
    api := cfg.apiEndpoint
    msg := e.displayStr
    providerTokenId := some cfg.providerTokenId }

/-- The `UsageEvent` reported by `handle_non_stream` on a successful unary
response; note the `model` field carries the CLIENT's requested model. -/
def mkUnaryUsageEvent (requestId userToken requestedModel : String)
    (cfg : RouteConfigL) (inputTokens outputTokens : Int) : UsageEventL :=
  { requestId := requestId
    token := userToken
    model := requestedModel
    api := cfg.apiEndpoint
    inputTokens := inputTokens
    outputTokens := outputTokens
    modelId := cfg.modelId
    providerId := cfg.providerId
    providerTokenId := cfg.providerTokenId }

/-- Telemetry and eviction effects accumulated by one run of the failover
loop. -/
structure PipeState where
  errorEvents : List ErrorEventL
  usageEvents : List UsageEventL
  evicted : List RouteConfigL
  deriving Repr, DecidableEq, Inhabited

/-- The `handle_non_stream` failover loop of src/main.rs.  The surrounding
HTTP world is abstracted by per-candidate oracles: `transformReq cfg` is the
result of `transform_request` (`none` = translation failure, logged and
skipped), `forward cfg` the result of `forward_request`, and
`transformResp cfg body` the result of `transform_response`. -/
def handleNonStreamGo (transformReq : RouteConfigL → Option String)
    (forward : RouteConfigL → Except GErrorL String)
    (transformResp : RouteConfigL → String → Option String)
    (requestId userToken requestedModel : String) :
    List RouteConfigL → PipeState → PipeState × PResponseL
  | [], st => (st, errorResponse 503 "All routes failed")
  | cfg :: rest, st =>
    match transformReq cfg with
    | none =>
      handleNonStreamGo transformReq forward transformResp
        requestId userToken requestedModel rest st
    | some _ =>
      match forward cfg with
      | .ok responseBody =>
        let st₁ :=
          match extractUsageFromResponse cfg.protocol responseBody with
          | some (i, o) =>
            { st with usageEvents := st.usageEvents ++
                [mkUnaryUsageEvent requestId userToken requestedModel cfg i o] }
          | none => st
        if responseBody = "" then
          handleNonStreamGo transformReq forward transformResp
            requestId userToken requestedModel rest st₁
        else
          match transformResp cfg responseBody with
          | some transformed => (st₁, { status := 200, body := transformed })
          | none =>
            handleNonStreamGo transformReq forward transformResp
              requestId userToken requestedModel rest st₁
      | .error e =>
        let st₁ := { st with errorEvents := st.errorEvents ++ [mkErrorEvent cfg e] }
        if isClientError e then (st₁, createErrorResponse e)
        else
          handleNonStreamGo transformReq forward transformResp
            requestId userToken requestedModel rest
            { st₁ with evicted := st₁.evicted ++ [cfg] }

/-- `handle_non_stream` starting from an empty telemetry trace. -/
def handleNonStream (transformReq : RouteConfigL → Option String)
    (forward : RouteConfigL → Except GErrorL String)
    (transformResp : RouteConfigL → String → Option String)
    (requestId userToken requestedModel : String)
    (routeConfigs : List RouteConfigL) : PipeState × PResponseL :=
  handleNonStreamGo transformReq forward transformResp requestId userToken
    requestedModel routeConfigs ⟨[], [], []⟩

/-! ## Protocol shapes (src/protocol/anthropic.rs and the `openai` module)

`f32` sampling parameters are carried through the translators verbatim and
never computed with, so they are modelled as opaque bit patterns. -/

/-- Opaque 32-bit float, passed through unchanged by every translator. -/
structure F32 where
  bits : Nat
  deriving Repr, DecidableEq, Inhabited

/-- `ImageSource` from src/protocol/anthropic.rs. -/
structure ImageSourceL where
  sourceType : String
  mediaType : String
  data : String
  deriving Repr, DecidableEq, Inhabited

/-- `ContentBlock` from src/protocol/anthropic.rs. -/
inductive AContentBlock where
  | text (text : String) : AContentBlock
  | image (source : ImageSourceL) : AContentBlock
  deriving Repr, Inhabited

/-- `MessageContent` from src/protocol/anthropic.rs. -/
inductive AMessageContent where
  | text (s : String) : AMessageContent
  | array (blocks : List AContentBlock) : AMessageContent
  deriving Repr, Inhabited

/-- Anthropic `Message`. -/
structure AMessage where
  role : String
  content : AMessageContent
  deriving Repr, Inhabited

/-- `AnthropicRequest` from src/protocol/anthropic.rs. -/
structure AnthropicRequestL where
  model : String
  messages : List AMessage
  maxTokens : Int
  temperature : Option F32
  topP : Option F32
  topK : Option Int
  stream : Option Bool
  system : Option String
  extra : Json
  deriving Repr, Inhabited

/-- Modelled from the spec: the `openai` protocol module
(src/protocol/openai.rs) is declared in src/protocol/mod.rs but its file is
absent from the sources; its `MessageContent` is reconstructed from the
spec's "preserve text content or flatten array content" and the adapter's
pattern match (`Text` plus a non-text array shape, the latter never
inspected field-by-field by the adapter). -/
inductive OMessageContent where
  | text (s : String) : OMessageContent
  | array (parts : List Json) : OMessageContent
  deriving Repr, Inhabited

/-- Modelled from the spec: OpenAI chat `Message` (role + content), per the
spec's unary-rewrite description and the adapter's field usage. -/
structure OMessage where
  role : String
  content : OMessageContent
  deriving Repr, Inhabited

/-- Modelled from the spec: `OpenAIRequest`, fields as used by
`openai_to_anthropic` / `anthropic_to_openai` in src/protocol/adapter.rs. -/
structure OpenAIRequestL where
  model : String
  messages : List OMessage
  maxTokens : Option Int
  temperature : Option F32
  topP : Option F32
  stream : Option Bool
  frequencyPenalty : Option F32
  presencePenalty : Option F32
  extra : Json
  deriving Repr, Inhabited

/-! ## Unary request translation (src/protocol/adapter.rs) -/

/-- Content translation used for `user`/`assistant` messages in
`openai_to_anthropic`: text is preserved, any other shape collapses to the
empty string (the source's wildcard arm). -/
def oaContentToA : OMessageContent → AMessageContent
  | .text t => .text t
  | _ => .text ""

/-- One `user`/`assistant` message as pushed by `openai_to_anthropic`. -/
def oMsgToA (m : OMessage) : AMessage :=
  { role := m.role, content := oaContentToA m.content }

/-- Content translation of `anthropic_to_openai` (same wildcard collapse). -/
def aContentToO : AMessageContent → OMessageContent
  | .text t => .text t
  | _ => .text ""

/-- One message as copied by `anthropic_to_openai`. -/
def aMsgToO (m : AMessage) : OMessage :=
  { role := m.role, content := aContentToO m.content }

/-- The message loop of `openai_to_anthropic`: system messages with text
content are promoted to the system prompt (the last one wins), `user` /
`assistant` messages are pushed with text content preserved (non-text
content collapses to the empty string), all other roles are discarded. -/
def oaMsgFold : List OMessage → Option String → List AMessage →
    Option String × List AMessage
  | [], sys, acc => (sys, acc)
  | m :: rest, sys, acc =>
    if m.role = "system" then
      match m.content with
      | .text t => oaMsgFold rest (some t) acc
      | _ => oaMsgFold rest sys acc
    else if m.role = "user" ∨ m.role = "assistant" then
      oaMsgFold rest sys (acc ++ [oMsgToA m])
    else oaMsgFold rest sys acc

/-- `UniversalAdapter::openai_to_anthropic` (always returns `Ok` in the
source, so modelled as total). -/
def openaiToAnthropic (req : OpenAIRequestL) (targetModel : String) : AnthropicRequestL :=
  { model := targetModel
    messages := (oaMsgFold req.messages none []).2
    maxTokens := req.maxTokens.getD 1024
    temperature := req.temperature
    topP := req.topP
    topK := none
    stream := req.stream
    system := (oaMsgFold req.messages none []).1
    extra := .obj [] }

/-- `UniversalAdapter::anthropic_to_openai` (always returns `Ok`). -/
def anthropicToOpenai (areq : AnthropicRequestL) (targetModel : String) : OpenAIRequestL :=
  { model := targetModel
    messages :=
      (match areq.system with
       | some s => [{ role := "system", content := OMessageContent.text s }]
       | none => []) ++ areq.messages.map aMsgToO
    maxTokens := some areq.maxTokens
    temperature := areq.temperature
    topP := areq.topP
    stream := areq.stream
    frequencyPenalty := none
    presencePenalty := none
    extra := .obj [] }

/-- The request round trip of claim C9: OpenAI → Anthropic → OpenAI, both
translations invoked with the request's own model as the target model. -/
def roundTripOpenAI (req : OpenAIRequestL) : OpenAIRequestL :=
  anthropicToOpenai (openaiToAnthropic req req.model) req.model

/-! ## OpenAI → Anthropic streaming state machine
(src/protocol/adapter.rs, `convert_openai_to_anthropic_stream`) -/

/-- The per-stream mutable state (sans byte buffer) of
`convert_openai_to_anthropic_stream`. -/
structure OAStreamCore where
  messageStarted : Bool
  contentBlockStarted : Bool
  messageId : String
  model : String
  usageTokens : Option Int
  deriving Repr, DecidableEq, Inhabited

/-- The initial per-stream state built before `stream.then(...)`. -/
def oaInit : OAStreamCore :=
  { messageStarted := false
    contentBlockStarted := false
    messageId := ""
    model := ""
    usageTokens := none }

/-- `UniversalAdapter::parse_sse_line`: split at the first `':'`, trim the
field, strip every leading `':'` from the remainder and trim the value. -/
def parseSseLine (l : List Char) : Option (List Char × List Char) :=
  match findSubIdx [':'] l with
  | none => none
  | some pos =>
    some (trimL (l.take pos), trimL ((l.drop pos).dropWhile (· = ':')))

/-- `UniversalAdapter::format_sse`. -/
def formatSse (event : Option String) (data : String) : String :=
  match event with
  | some e => "event: " ++ e ++ "\ndata: " ++ data ++ "\n\n"
  | none => "data: " ++ data ++ "\n\n"

/-- The `content_block_start` SSE block the machine emits. -/
def blockStartStr : String :=
  formatSse (some "content_block_start") (renderJson (Json.mkObj
    [("type", .str "content_block_start"), ("index", .num 0),
     ("content_block", Json.mkObj [("type", .str "text"), ("text", .str "")])]))

/-- Handling of one complete `data:` line value by the OpenAI→Anthropic
machine; returns the new state, the SSE blocks pushed to `output`, and
whether the loop `break`s (`[DONE]`).  Token counts pass through `as_i64`
then `as i32`; the cast is modelled as identity (the counters the gateway
meets are far below `i32::MAX`, so the truncation never bites). -/
def oaHandleData (st : OAStreamCore) (value : String) : OAStreamCore × List String × Bool :=
  if value = "[DONE]" then
    let stopOuts :=
      if st.contentBlockStarted then
        [formatSse (some "content_block_stop") (renderJson (Json.mkObj
          [("type", .str "content_block_stop"), ("index", .num 0)]))]
      else []
    let deltaEvent :=
      match st.usageTokens with
      | some usage =>
        Json.mkObj [("type", .str "message_delta"),
          ("delta", Json.mkObj [("stop_reason", .str "end_turn")]),
          ("usage", Json.mkObj [("output_tokens", .num usage)])]
      | none =>
        Json.mkObj [("type", .str "message_delta"),
          ("delta", Json.mkObj [("stop_reason", .str "end_turn")])]
    (st,
     stopOuts ++
       [formatSse (some "message_delta") (renderJson deltaEvent),
        formatSse (some "message_stop") (renderJson (Json.mkObj [("type", .str "message_stop")]))],
     true)
  else
    match parseJson value with
    | none => (st, [], false)
    | some j =>
      let st :=
        match j.getKey "usage" with
        | some u =>
          if !u.isNull then { st with usageTokens := (u.getKey "completion_tokens").bind Json.asInt }
          else st
        | none => st
      let startPair :=
        if !st.messageStarted then
          let mid := ((j.idx "id").asStr).getD "msg_unknown"
          let mdl := ((j.idx "model").asStr).getD "unknown"
          let startEvent := Json.mkObj
            [("type", .str "message_start"),
             ("message", Json.mkObj
               [("id", .str mid), ("type", .str "message"), ("role", .str "assistant"),
                ("content", .arr []), ("model", .str mdl),
                ("stop_reason", .null), ("stop_sequence", .null)])]
          ({ st with messageStarted := true, messageId := mid, model := mdl },
           [formatSse (some "message_start") (renderJson startEvent)])
        else (st, ([] : List String))
      let st := startPair.1
      let outs := startPair.2
      match (j.idx "choices").asArr with
      | none => (st, outs, false)
      | some choices =>
        match choices.head? with
        | none => (st, outs, false)
        | some choice =>
          match choice.getKey "delta" with
          | none => (st, outs, false)
          | some delta =>
            let rolePair :=
              if (delta.getKey "role").isSome && !st.contentBlockStarted then
                ({ st with contentBlockStarted := true }, outs ++ [blockStartStr])
              else (st, outs)
            let st := rolePair.1
            let outs := rolePair.2
            match (delta.getKey "content").bind Json.asStr with
            | none => (st, outs, false)
            | some content =>
              if content ≠ "" then
                let contPair :=
                  if !st.contentBlockStarted then
                    ({ st with contentBlockStarted := true }, outs ++ [blockStartStr])
                  else (st, outs)
                let st := contPair.1
                let outs := contPair.2
                let deltaEvent := Json.mkObj
                  [("type", .str "content_block_delta"), ("index", .num 0),
                   ("delta", Json.mkObj [("type", .str "text_delta"), ("text", .str content)])]
                (st, outs ++ [formatSse (some "content_block_delta") (renderJson deltaEvent)], false)
              else (st, outs, false)

/-- The per-chunk line loop (`while let Some(pos) = buffer.iter().position
(|&b| b == b'\n')`).  Every iteration consumes at least one character of the
buffer, so the fuel `buffer.length + 1` supplied by `oaProcessChunk` is
never exhausted.  The Rust loop keeps the newline inside the split-off line
and then trims it away; `splitLine` drops it up front, which trims to the
same line. -/
def oaLoop (fuel : Nat) (st : OAStreamCore) (buf : List Char) (acc : List String) :
    OAStreamCore × List Char × List String :=
  match fuel with
  | 0 => (st, buf, acc)
  | fuel + 1 =>
    match splitLine buf with
    | none => (st, buf, acc)
    | some (line, rest) =>
      let t := trimL line
      if t = [] then oaLoop fuel st rest acc
      else
        match parseSseLine t with
        | none => oaLoop fuel st rest acc
        | some (field, value) =>
          if field = "data".data then
            let r := oaHandleData st (String.mk value)
            if r.2.2 then (r.1, rest, acc ++ r.2.1)
            else oaLoop fuel r.1 rest (acc ++ r.2.1)
          else oaLoop fuel st rest acc

/-- One invocation of the `then` closure on an `Ok` chunk: extend the buffer,
drain complete lines, join the pushed blocks into the emitted `Bytes`. -/
def oaProcessChunk (st : OAStreamCore) (buffer : List Char) (chunk : String) :
    (OAStreamCore × List Char) × String :=
  let buf := buffer ++ chunk.data
  let r := oaLoop (buf.length + 1) st buf []
  ((r.1, r.2.1), String.join r.2.2)

/-- `convert_openai_to_anthropic_stream` as the source actually behaves: the
closure passed to `StreamExt::then` clones its captured state into locals on
every invocation (`let mut buffer = buffer.clone(); let mut message_started
= message_started; ...`) and the clones are dropped when the async block
finishes, so the captured state is never written back — every chunk is
processed from the INITIAL state and leftover partial lines are discarded at
each chunk boundary.  Output is the concatenation of the per-chunk `Bytes`. -/
def convertOpenAIToAnthropicStream (chunks : List String) : List String :=
  chunks.map fun c => (oaProcessChunk oaInit [] c).2

/-- Number of occurrences of a (non-empty) pattern in a character list. -/
def countOccur (needle : List Char) : List Char → Nat
  | [] => 0
  | c :: cs => (if isPrefixL needle (c :: cs) then 1 else 0) + countOccur needle cs

/-! ## Stream usage collector (src/usage_collector.rs) -/

/-- The constructor arguments of `StreamUsageCollector` that never change
during a stream. -/
structure CollectorCtx where
  requestId : String
  userToken : String
  cfg : RouteConfigL
  deriving Repr, DecidableEq, Inhabited

/-- The collector's mutable state (`input_tokens`, `output_tokens`, the SSE
reassembly buffer) plus the trace of UsageEvents handed to
`telemetry.report_usage`. -/
structure ColState where
  inputTokens : Option Int
  outputTokens : Option Int
  buffer : List Char
  reports : List UsageEventL
  deriving Repr, DecidableEq, Inhabited

/-- Fresh collector state (`StreamUsageCollector::new`). -/
def colInit : ColState :=
  { inputTokens := none, outputTokens := none, buffer := [], reports := [] }

/-- `StreamUsageCollector::report_usage`: publish a UsageEvent iff BOTH token
counts are known; note there is no "already reported" flag — the check is
only on the two options, and the event's `model` field carries the
RouteConfig's (provider-side) model name. -/
def reportUsage (ctx : CollectorCtx) (st : ColState) : ColState :=
  match st.inputTokens, st.outputTokens with
  | some i, some o =>
    { st with reports := st.reports ++
        [{ requestId := ctx.requestId
           token := ctx.userToken
           model := ctx.cfg.model
           api := ctx.cfg.apiEndpoint
           inputTokens := i
           outputTokens := o
           modelId := ctx.cfg.modelId
           providerId := ctx.cfg.providerId
           providerTokenId := ctx.cfg.providerTokenId }] }
  | _, _ => st

/-- The "Codex" (`response.completed` / `response.done`) arm of the OpenAI
branch of `extract_usage_from_json`: read `response.usage.input_tokens` /
`output_tokens` and report. -/
def codexUsage (ctx : CollectorCtx) (st : ColState) (j : Json) : ColState :=
  match j.getKey "response" with
  | some resp =>
    match resp.getKey "usage" with
    | some usage =>
      let st₁ :=
        match (usage.getKey "input_tokens").bind Json.asInt with
        | some input => { st with inputTokens := some input }
        | none => st
      let st₂ :=
        match (usage.getKey "output_tokens").bind Json.asInt with
        | some output => { st₁ with outputTokens := some output }
        | none => st₁
      reportUsage ctx st₂
    | none => st
  | none => st

/-- The standard OpenAI arm of `extract_usage_from_json`: a chunk with a
`usage` object sets input from `prompt_tokens` (falling back to
`input_tokens`) and output from `completion_tokens` (falling back to
`output_tokens`), reporting as soon as an output count is seen. -/
def openaiStdUsage (ctx : CollectorCtx) (st : ColState) (j : Json) : ColState :=
  match j.getKey "usage" with
  | some usage =>
    let st₁ :=
      match ((usage.getKey "prompt_tokens").orElse
              fun _ => usage.getKey "input_tokens").bind Json.asInt with
      | some input => { st with inputTokens := some input }
      | none => st
    match ((usage.getKey "completion_tokens").orElse
            fun _ => usage.getKey "output_tokens").bind Json.asInt with
    | some output => reportUsage ctx { st₁ with outputTokens := some output }
    | none => st₁
  | none => st

/-- `StreamUsageCollector::extract_usage_from_json`, by upstream protocol.
The source's early `return` after a matched Codex event type becomes an
if/else between the Codex arm and the standard arm. -/
def extractUsageFromJson (ctx : CollectorCtx) (st : ColState) (j : Json) : ColState :=
  match ctx.cfg.protocol with
  | .anthropic =>
    match (j.getKey "type").bind Json.asStr with
    | some t =>
      if t = "message_start" then
        match j.getKey "message" with
        | some message =>
          match message.getKey "usage" with
          | some usage =>
            match (usage.getKey "input_tokens").bind Json.asInt with
            | some input => { st with inputTokens := some input }
            | none => st
          | none => st
        | none => st
      else if t = "message_delta" then
        match j.getKey "usage" with
        | some usage =>
          match (usage.getKey "output_tokens").bind Json.asInt with
          | some output => { st with outputTokens := some output }
          | none => st
        | none => st
      else if t = "message_stop" then reportUsage ctx st
      else st
    | none => st
  | .openAI | .custom _ =>
    match (j.getKey "type").bind Json.asStr with
    | some t =>
      if t = "response.completed" || t = "response.done" then codexUsage ctx st j
      else openaiStdUsage ctx st j
    | none => openaiStdUsage ctx st j

/-- `StreamUsageCollector::parse_and_process_sse_event`: scan the event's
lines for `event:` / `data:` fields (the parsed event name is logged but
never branched on), join the data lines, skip `[DONE]`, JSON-parse and
extract. -/
def parseAndProcessSse (ctx : CollectorCtx) (st : ColState) (event : List Char) : ColState :=
  let step := fun (acc : Option String × List String) (line : List Char) =>
    match stripPrefixL "event:".data line with
    | some rest => (some (String.mk (trimL rest)), acc.2)
    | none =>
      match stripPrefixL "data:".data line with
      | some rest => (acc.1, acc.2 ++ [String.mk rest])
      | none => acc
  let parsed := (linesOf event).foldl step (none, [])
  let dataLines := parsed.2
  if dataLines.isEmpty then st
  else
    let data := String.intercalate "\n" dataLines
    if trimL data.data = "[DONE]".data then st
    else
      match parseJson data with
      | some j => extractUsageFromJson ctx st j
      | none => st

/-- The `while let Some(event_end) = buffer.find("\n\n")` loop of
`process_chunk`.  Every iteration removes at least two characters from the
buffer, so the fuel `buffer.length + 1` supplied by `processChunk` is never
exhausted. -/
def colLoop (ctx : CollectorCtx) : Nat → ColState → ColState
  | 0, st => st
  | fuel + 1, st =>
    match splitDoubleNL st.buffer with
    | none => st
    | some (event, rest) =>
      colLoop ctx fuel (parseAndProcessSse ctx { st with buffer := rest } event)

/-- `StreamUsageCollector::process_chunk`: append the chunk (chunks are
modelled as strings, hence always valid UTF-8), drain complete SSE events,
then clear the buffer if it exceeds 1 MiB. -/
def processChunk (ctx : CollectorCtx) (st : ColState) (chunk : String) : ColState :=
  let st₁ := { st with buffer := st.buffer ++ chunk.data }
  let st₂ := colLoop ctx (st₁.buffer.length + 1) st₁
  if st₂.buffer.length > 1024 * 1024 then { st₂ with buffer := [] } else st₂

/-- `StreamUsageCollector::wrap_stream` on a stream of `Ok` chunks: tap every
chunk (passing it through unchanged), and when the stream ends call
`report_usage` one final time. -/
def wrapStreamRun (ctx : CollectorCtx) (chunks : List String) : ColState :=
  reportUsage ctx (chunks.foldl (processChunk ctx) colInit)

/-! ## Concrete fixtures used by the claim theorems -/

/-- An Anthropic-protocol route, as a resolver would return it. -/
def cfgAnthropic : RouteConfigL :=
  { token := "provider-token"
    model := "claude-3"
    apiEndpoint := "https://api.example.com"
    protocol := .anthropic
    modelId := "mid-1"
    providerId := "pid-1"
    providerTokenId := "ptid-1" }

/-- Collector context for a streaming request against `cfgAnthropic`. -/
def ctxAnthropic : CollectorCtx :=
  { requestId := "req-1", userToken := "user-token", cfg := cfgAnthropic }

/-- A complete, well-formed Anthropic SSE stream carrying usage in
`message_start` and `message_delta` and ending with `message_stop`,
delivered in one chunk. -/
def anthropicUsageChunks : List String :=
  ["event: message_start\ndata: " ++
     renderJson (Json.mkObj [("type", .str "message_start"),
       ("message", Json.mkObj [("usage", Json.mkObj [("input_tokens", .num 1)])])]) ++
   "\n\nevent: message_delta\ndata: " ++
     renderJson (Json.mkObj [("type", .str "message_delta"),
       ("usage", Json.mkObj [("output_tokens", .num 2)])]) ++
   "\n\nevent: message_stop\ndata: " ++
     renderJson (Json.mkObj [("type", .str "message_stop")]) ++ "\n\n"]

/-- An OpenAI upstream stream delivered in two chunks: the first data line
carries `id`/`model`, the second adds a content delta. -/
def oaTwoChunks : List String :=
  ["data: " ++ renderJson (Json.mkObj [("id", .str "c"), ("model", .str "m")]) ++ "\n",
   "data: " ++ renderJson (Json.mkObj [("id", .str "c"), ("model", .str "m"),
     ("choices", .arr [Json.mkObj [("delta", Json.mkObj [("content", .str "hi")])]])]) ++
   "\n"]

/-- An OpenAI-protocol route used in failover scenarios. -/
def cfgOpenAI : RouteConfigL :=
  { token := "provider-token-2"
    model := "gpt-4"
    apiEndpoint := "https://api.other.example/v1"
    protocol := .openAI
    modelId := "mid-2"
    providerId := "pid-2"
    providerTokenId := "ptid-2" }

/-- A transport-level error display whose text contains "400" (from a port
number in the URL) without being an upstream 4xx. -/
def transportMsg400 : String :=
  "HTTP error: error sending request for url (http://host:4004/v1/chat/completions)"

/-- Every UsageEvent in the collector state's trace carries the
RouteConfig's model name. -/
def ReportsModelOk (ctx : CollectorCtx) (st : ColState) : Prop :=
  ∀ e ∈ st.reports, e.model = ctx.cfg.model

/-- A live cache entry: created at 5, sliding expiry 10, hard expiry 20. -/
def wEntry : CacheEntryL :=
  { configs := [cfgAnthropic], createdAt := 5, expiresAt := 10, hardExpiresAt := 20 }

/-- A one-entry cache map holding `wEntry`. -/
def wMap : CacheMap :=
  fun k => if k = "user-token:claude-3" then some wEntry else none

/-- A cache entry holding two routes, the first of which will fail. -/
def wEntry₂ : CacheEntryL :=
  { configs := [cfgAnthropic, cfgOpenAI], createdAt := 5, expiresAt := 10, hardExpiresAt := 20 }

/-- A one-entry cache map holding `wEntry₂`. -/
def wMap₂ : CacheMap :=
  fun k => if k = "user-token:claude-3" then some wEntry₂ else none

/-- A text-only OpenAI request exercising every preserved field. -/
def wReq : OpenAIRequestL :=
  { model := "gpt-4"
    messages :=
      [{ role := "system", content := .text "be nice" },
       { role := "user", content := .text "hi" },
       { role := "assistant", content := .text "hello" }]
    maxTokens := some 256
    temperature := some ⟨1⟩
    topP := none
    stream := some true
    frequencyPenalty := none
    presencePenalty := none
    extra := .obj [] }

/-- The UsageEvent the collector publishes for `anthropicUsageChunks`. -/
def wEvent : UsageEventL :=
  { requestId := "req-1", token := "user-token", model := "claude-3"
    api := "https://api.example.com", inputTokens := 1, outputTokens := 2
    modelId := "mid-1", providerId := "pid-1", providerTokenId := "ptid-1" }

/-! ## Claim theorems -/

/-- C1: the claim says the streaming translator's output is invariant under
re-chunking of the upstream bytes, a partial SSE line at a chunk boundary
being buffered for the next chunk.  The code instead re-clones the initial
per-stream state on every chunk (the `then` closure clones its captures and
never writes them back), so a `data: [DONE]\n` line split across two chunks
produces NO output while the same bytes in one chunk produce the
`message_delta` / `message_stop` events: two chunkings of identical bytes
yield different outputs. -/
theorem stream_chunking_dependence :
    ("data: [DO" ++ "NE]\n" : String) = "data: [DONE]\n" ∧
    String.join (convertOpenAIToAnthropicStream ["data: [DO", "NE]\n"]) = "" ∧
    String.join (convertOpenAIToAnthropicStream ["data: [DONE]\n"]) ≠ "" := by
  refine ⟨rfl, by decide, by decide⟩

/-- C2: the claim says `message_start` is emitted exactly once per stream,
guarded by the `message_started` flag.  The flag is lost at every chunk
boundary (the closure mutates a clone of its captures), so a stream whose
data lines arrive in two chunks gets two `message_start` events. -/
theorem message_start_reemitted_per_chunk :
    countOccur "event: message_start".data
      (String.join (convertOpenAIToAnthropicStream oaTwoChunks)).data = 2 := by
  decide

/-- C3: the claim says the final `report()` at stream end is a no-op when a
report was already sent at `message_stop`.  `report_usage` has no
already-reported flag — it publishes whenever both token counts are known —
so a well-formed Anthropic stream yields TWO UsageEvents with the same
`request_id`: one at `message_stop` and one at stream end. -/
theorem double_usage_report :
    (wrapStreamRun ctxAnthropic anthropicUsageChunks).reports.length = 2 ∧
    (wrapStreamRun ctxAnthropic anthropicUsageChunks).reports.map (fun e => e.requestId) =
      ["req-1", "req-1"] := by
  refine ⟨by decide, by decide⟩

/-- C4 counterexample: the claim ties surfacing/stopping to "the error
message contains any of the substrings ...", but `is_client_error` applies
the substring test ONLY to `Error::Proxy`; for any other error kind it
returns false regardless of the message.  A transport error whose display
contains "400" is therefore NOT surfaced: the candidate is evicted, failover
continues, and with no candidate left the client gets 503 — contradicting
the claim's "surfaced to the client, no further candidate tried, candidate
not evicted". -/
theorem client_error_substring_not_surfaced :
    containsSubL "400".data transportMsg400.data = true ∧
    isClientError (.other transportMsg400) = false ∧
    (handleNonStream (fun _ => some "body") (fun _ => .error (.other transportMsg400))
        (fun _ _ => none) "rid" "utok" "gpt-4" [cfgOpenAI]).2 =
      errorResponse 503 "All routes failed" ∧
    (handleNonStream (fun _ => some "body") (fun _ => .error (.other transportMsg400))
        (fun _ _ => none) "rid" "utok" "gpt-4" [cfgOpenAI]).1.evicted = [cfgOpenAI] := by
  refine ⟨by decide, by decide, by decide, by decide⟩

/-- C4 (amended): in the failover loop, every candidate whose forwarding
fails gets an ErrorEvent; if the failure is a `Proxy` error whose message
contains one of "400", "401", "403", "404", "422", "429" — the condition
`is_client_error` actually tests, returning false for all non-Proxy errors —
the mapped status is surfaced and the loop stops WITHOUT evicting the
candidate; otherwise the candidate is evicted and the next one is tried;
and when every candidate fails with a non-client error the client gets 503
with one ErrorEvent and one eviction per candidate. -/
theorem failover_classification (tq : RouteConfigL → Option String)
    (fwd : RouteConfigL → Except GErrorL String)
    (tr : RouteConfigL → String → Option String) (rid ut rm : String) :
    (∀ m, isClientError (.proxy m) =
      (containsSubL "400".data m.data || containsSubL "401".data m.data ||
       containsSubL "403".data m.data || containsSubL "404".data m.data ||
       containsSubL "422".data m.data || containsSubL "429".data m.data)) ∧
    (∀ m, isClientError (.other m) = false) ∧
    (∀ cfg rest st e b, tq cfg = some b → fwd cfg = .error e → isClientError e = true →
      handleNonStreamGo tq fwd tr rid ut rm (cfg :: rest) st =
        ({ st with errorEvents := st.errorEvents ++ [mkErrorEvent cfg e] },
         createErrorResponse e)) ∧
    (∀ cfg rest st e b, tq cfg = some b → fwd cfg = .error e → isClientError e = false →
      handleNonStreamGo tq fwd tr rid ut rm (cfg :: rest) st =
        handleNonStreamGo tq fwd tr rid ut rm rest
          { st with errorEvents := st.errorEvents ++ [mkErrorEvent cfg e],
                    evicted := st.evicted ++ [cfg] }) ∧
    (∀ cfgs st,
      (∀ cfg ∈ cfgs, ∃ e b, tq cfg = some b ∧ fwd cfg = .error e ∧ isClientError e = false) →
      (handleNonStreamGo tq fwd tr rid ut rm cfgs st).2 =
        errorResponse 503 "All routes failed" ∧
      (handleNonStreamGo tq fwd tr rid ut rm cfgs st).1.evicted = st.evicted ++ cfgs ∧
      (handleNonStreamGo tq fwd tr rid ut rm cfgs st).1.errorEvents.length =
        st.errorEvents.length + cfgs.length) := by
  refine ⟨fun m => rfl, fun m => rfl, ?_, ?_, ?_⟩
  · intro cfg rest st e b htq hfwd hce
    simp only [handleNonStreamGo, htq, hfwd, hce, if_true]
  · intro cfg rest st e b htq hfwd hce
    simp only [handleNonStreamGo, htq, hfwd, hce, Bool.false_eq_true, if_false]
  · intro cfgs
    induction cfgs with
    | nil => intro st _; exact ⟨rfl, by simp [handleNonStreamGo], by simp [handleNonStreamGo]⟩
    | cons cfg rest ih =>
      intro st hall
      obtain ⟨e, b, htq, hfwd, hce⟩ := hall cfg (List.mem_cons_self cfg rest)
      have hrest : ∀ c ∈ rest, ∃ e b, tq c = some b ∧ fwd c = .error e ∧ isClientError e = false :=
        fun c hc => hall c (List.mem_cons_of_mem _ hc)
      have hstep :
          handleNonStreamGo tq fwd tr rid ut rm (cfg :: rest) st =
            handleNonStreamGo tq fwd tr rid ut rm rest
              { st with errorEvents := st.errorEvents ++ [mkErrorEvent cfg e],
                        evicted := st.evicted ++ [cfg] } := by
        simp only [handleNonStreamGo, htq, hfwd, hce, Bool.false_eq_true, if_false]
      rw [hstep]
      obtain ⟨h1, h2, h3⟩ := ih _ hrest
      refine ⟨h1, ?_, ?_⟩
      · rw [h2]; simp
      · rw [h3]; simp [List.length_append]; omega

/-- C5: every cache entry satisfies `expires_at ≤ hard_expires_at` and
`created_at ≤ expires_at`: it holds of a fresh `set` entry, is preserved by
`get`'s sliding refresh (`expires_at := min(now + ttl, hard_expires_at)`,
with time monotone so the entry was created no later than `now`), repeated
refreshes extend `expires_at` monotonically but never past
`hard_expires_at`, and the hit path of `get` is exactly that refresh. -/
theorem cache_entry_invariant (e : CacheEntryL) (m : CacheMap) (token model : String)
    (now t₁ t₂ ttl maxLifetime : Nat) (cfgs : List RouteConfigL)
    (hinv : entryInv e) (hcreated : e.createdAt ≤ now) (h₁₂ : t₁ ≤ t₂)
    (hlook : m (makeKey token model) = some e)
    (hhard : now < e.hardExpiresAt) (hsoft : now < e.expiresAt) :
    entryInv (setEntry now ttl maxLifetime cfgs) ∧
    entryInv (refreshEntry e now ttl) ∧
    (refreshEntry e now ttl).hardExpiresAt = e.hardExpiresAt ∧
    (refreshEntry e t₁ ttl).expiresAt ≤
      (refreshEntry (refreshEntry e t₁ ttl) t₂ ttl).expiresAt ∧
    (refreshEntry (refreshEntry e t₁ ttl) t₂ ttl).expiresAt ≤ e.hardExpiresAt ∧
    cacheGet m token model now ttl =
      (mapInsert m (makeKey token model) (refreshEntry e now ttl),
       some (refreshEntry e now ttl).configs) := by
  obtain ⟨hEH, hCE⟩ := hinv
  refine ⟨⟨min_le_right _ _, le_min (Nat.le_add_right _ _) (Nat.le_add_right _ _)⟩,
    ⟨min_le_right _ _, le_min (hcreated.trans (Nat.le_add_right _ _)) (hCE.trans hEH)⟩,
    rfl, ?_, ?_, ?_⟩
  · simp only [refreshEntry]
    exact min_le_min (Nat.add_le_add_right h₁₂ _) le_rfl
  · simp only [refreshEntry]
    exact min_le_right _ _
  · simp only [cacheGet, hlook]
    rw [if_neg (by omega), if_neg (by omega)]

/-- C6: `remove_config` retains exactly the configs whose
`(token, api_endpoint)` pair differs from the failed config's, removes the
whole entry when nothing remains, and the very next `get` for the same key
never returns a config matching the evicted pair. -/
theorem remove_config_spec (m : CacheMap) (token model : String)
    (failed : RouteConfigL) (e : CacheEntryL) (now ttl : Nat)
    (hlook : m (makeKey token model) = some e) :
    (∀ c : RouteConfigL, keepConfig failed c = false ↔
      (c.token = failed.token ∧ c.apiEndpoint = failed.apiEndpoint)) ∧
    (e.configs.filter (keepConfig failed) = [] →
      removeConfigC m token model failed (makeKey token model) = none) ∧
    (e.configs.filter (keepConfig failed) ≠ [] →
      removeConfigC m token model failed (makeKey token model) =
        some { e with configs := e.configs.filter (keepConfig failed) }) ∧
    (∀ l c, (cacheGet (removeConfigC m token model failed) token model now ttl).2 = some l →
      c ∈ l → ¬(c.token = failed.token ∧ c.apiEndpoint = failed.apiEndpoint)) := by
  have hkeep : ∀ c : RouteConfigL, keepConfig failed c = false ↔
      (c.token = failed.token ∧ c.apiEndpoint = failed.apiEndpoint) := by
    intro c
    simp [keepConfig, not_or]
  refine ⟨hkeep, ?_, ?_, ?_⟩
  · intro hfil
    simp only [removeConfigC, hlook, hfil, List.isEmpty_nil, if_true, mapRemove, if_pos rfl]
  · intro hfil
    simp only [removeConfigC, hlook]
    rw [if_neg (by simpa [List.isEmpty_iff] using hfil), mapInsert, if_pos rfl]
  · intro l c hget hc
    by_cases hfil : e.configs.filter (keepConfig failed) = []
    · have hkey : removeConfigC m token model failed (makeKey token model) = none := by
        simp only [removeConfigC, hlook, hfil, List.isEmpty_nil, if_true, mapRemove, if_pos rfl]
      simp only [cacheGet, hkey] at hget
      exact absurd hget (by simp)
    · have hkey : removeConfigC m token model failed (makeKey token model) =
          some { e with configs := e.configs.filter (keepConfig failed) } := by
        simp only [removeConfigC, hlook]
        rw [if_neg (by simpa [List.isEmpty_iff] using hfil), mapInsert, if_pos rfl]
      simp only [cacheGet, hkey] at hget
      by_cases hh : now ≥ ({ e with configs := e.configs.filter (keepConfig failed) } :
          CacheEntryL).hardExpiresAt
      · rw [if_pos hh] at hget; exact absurd hget (by simp)
      · rw [if_neg hh] at hget
        by_cases hs : now ≥ ({ e with configs := e.configs.filter (keepConfig failed) } :
            CacheEntryL).expiresAt
        · rw [if_pos hs] at hget; exact absurd hget (by simp)
        · rw [if_neg hs] at hget
          simp only [refreshEntry, Option.some.injEq] at hget
          subst hget
          have := (List.mem_filter.mp hc).2
          intro hpair
          rw [(hkeep c).mpr hpair] at this
          exact absurd this (by simp)

/-- Characterization of the retry loop at any attempt index: the loop stops
at `stopIdxGo`, every attempt strictly before the stop index was retryable,
a retryable outcome at the stop index means the retry budget is exhausted,
and the run returns the sleep trace `100ms * attempt` for each retry
together with `finalAnswer` of the stopping outcome. -/
theorem fetchGo_characterization (o : Nat → ApiOutcome) (maxRetries : Nat) :
    ∀ fuel i, i ≤ maxRetries → maxRetries + 1 ≤ i + fuel →
      i ≤ stopIdxGo o maxRetries fuel i ∧
      stopIdxGo o maxRetries fuel i ≤ maxRetries ∧
      (∀ j, i ≤ j → j < stopIdxGo o maxRetries fuel i → retryableOutcome (o j) = true) ∧
      (retryableOutcome (o (stopIdxGo o maxRetries fuel i)) = true →
        stopIdxGo o maxRetries fuel i = maxRetries) ∧
      fetchGo o maxRetries fuel i =
        ((List.range' (i + 1) (stopIdxGo o maxRetries fuel i - i)).map (fun j => 100 * j),
         finalAnswer (o (stopIdxGo o maxRetries fuel i))) := by
  intro fuel
  induction fuel with
  | zero => intro i h₁ h₂; omega
  | succ fuel ih =>
    intro i hle hfuel
    by_cases hstep : retryableOutcome (o i) = true ∧ i < maxRetries
    · have hstop : stopIdxGo o maxRetries (fuel + 1) i = stopIdxGo o maxRetries fuel (i + 1) := by
        simp [stopIdxGo, hstep.1, hstep.2]
      have hfetch : fetchGo o maxRetries (fuel + 1) i =
          (100 * (i + 1) :: (fetchGo o maxRetries fuel (i + 1)).1,
           (fetchGo o maxRetries fuel (i + 1)).2) := by
        cases ho : o i with
        | transport => simp [fetchGo, ho, hstep.2]
        | response s parsed =>
          have hserv : isServerErrorStatus s = true := by
            simpa [retryableOutcome, ho] using hstep.1
          have hsucc : isSuccessStatus s = false := by
            simp only [isServerErrorStatus, Bool.and_eq_true, decide_eq_true_eq] at hserv
            simp only [isSuccessStatus, Bool.and_eq_false_iff, decide_eq_false_iff_not]
            omega
          simp [fetchGo, ho, hsucc, hserv, hstep.2]
      obtain ⟨ih₁, ih₂, ih₃, ih₄, ih₅⟩ := ih (i + 1) (by omega) (by omega)
      rw [hstop, hfetch, ih₅]
      refine ⟨by omega, ih₂, ?_, ih₄, ?_⟩
      · intro j hij hjk
        rcases Nat.eq_or_lt_of_le hij with rfl | hlt
        · exact hstep.1
        · exact ih₃ j (by omega) hjk
      · have hk : stopIdxGo o maxRetries fuel (i + 1) - i =
            (stopIdxGo o maxRetries fuel (i + 1) - (i + 1)) + 1 := by omega
        rw [hk, List.range'_succ, List.map_cons]
    · have hstop : stopIdxGo o maxRetries (fuel + 1) i = i := by
        simp only [stopIdxGo]
        rw [if_neg]
        intro hcond
        rw [Bool.and_eq_true, decide_eq_true_eq] at hcond
        exact hstep hcond
      rw [hstop]
      refine ⟨le_rfl, hle, fun j h₁ h₂ => absurd (h₁.trans_lt h₂) (lt_irrefl i), ?_, ?_⟩
      · intro hr
        by_contra hne
        exact hstep ⟨hr, by omega⟩
      · rw [Nat.sub_self, List.range'_zero, List.map_nil]
        cases ho : o i with
        | transport =>
          have hnlt : ¬ i < maxRetries := fun hlt =>
            hstep ⟨by simp [retryableOutcome, ho], hlt⟩
          simp [fetchGo, ho, hnlt, finalAnswer]
        | response s parsed =>
          by_cases hsucc : isSuccessStatus s = true
          · simp [fetchGo, ho, hsucc, finalAnswer]
          · have hcond : (isServerErrorStatus s && decide (i < maxRetries)) = false := by
              rw [Bool.and_eq_false_iff]
              by_cases hserv : isServerErrorStatus s = true
              · right
                rw [decide_eq_false_iff_not]
                intro hlt
                exact hstep ⟨by simp [retryableOutcome, ho, hserv], hlt⟩
              · left; exact Bool.not_eq_true _ ▸ (Bool.eq_false_iff.mpr hserv)
            simp [fetchGo, ho, hsucc, hcond, finalAnswer]

/-- C7: the business-API fetch retries exactly on transport errors and 5xx
statuses (never on a 4xx or on a parsed `success=false` body, which yield a
routing error immediately), sleeps `100ms * attempt-number` before each
retry, performs at most `retry_attempts` retries, and a `success=true` body
yields its data list — all read off `finalAnswer` at the stopping attempt. -/
theorem fetch_retry_policy (o : Nat → ApiOutcome) (maxRetries : Nat) :
    stopIdx o maxRetries ≤ maxRetries ∧
    (∀ j, j < stopIdx o maxRetries → retryableOutcome (o j) = true) ∧
    (retryableOutcome (o (stopIdx o maxRetries)) = true →
      stopIdx o maxRetries = maxRetries) ∧
    (∀ s p, isSuccessStatus s = false → isServerErrorStatus s = false →
      retryableOutcome (.response s p) = false) ∧
    (∀ s r, isSuccessStatus s = true → r.success = true →
      finalAnswer (.response s (some r)) = .ok r.data) ∧
    (∀ s r, isSuccessStatus s = true → r.success = false →
      finalAnswer (.response s (some r)) =
        .error (.routing ("Business API returned error: " ++ r.message))) ∧
    (∀ s p, isSuccessStatus s = false →
      finalAnswer (.response s p) =
        .error (.routing ("Business API returned status: " ++ toString s))) ∧
    fetchFromBusinessApi o maxRetries =
      ((List.range' 1 (stopIdx o maxRetries)).map (fun j => 100 * j),
       finalAnswer (o (stopIdx o maxRetries))) := by
  obtain ⟨h₁, h₂, h₃, h₄, h₅⟩ :=
    fetchGo_characterization o maxRetries (maxRetries + 1) 0 (Nat.zero_le _) (by omega)
  refine ⟨h₂, fun j hj => h₃ j (Nat.zero_le _) hj, h₄,
    fun s p hs hserv => by simp [retryableOutcome, hserv],
    fun s r hs hr => by simp [finalAnswer, hs, hr],
    fun s r hs hr => by simp [finalAnswer, hs, hr],
    fun s p hs => by simp [finalAnswer, hs], ?_⟩
  simpa [fetchFromBusinessApi, stopIdx] using h₅

/-- C8 counterexample: the claim (like the spec) says URL composition "trims
one trailing `/`"; the source uses `trim_end_matches('/')`, which removes
EVERY trailing slash.  On an endpoint ending in `//` the two disagree. -/
theorem url_trim_one_slash_refuted :
    composeUrl "http://e//" none .openAI ≠ composeUrlSpecOne "http://e//" none .openAI ∧
    composeUrl "http://e//" none .openAI = "http://e/v1/chat/completions" ∧
    composeUrlSpecOne "http://e//" none .openAI = "http://e//v1/chat/completions" := by
  refine ⟨by decide, by decide, by decide⟩

/-- C8 (amended): URL composition trims ALL trailing `/` from `api_endpoint`
(so appending a slash never changes the result) and then appends the path
chosen by (custom_path, protocol) under the ends-with-`/v1` rule: custom
path `/v1/responses` yields `/responses` against a base already ending in
`/v1` and `/v1/responses` otherwise; OpenAI and Custom targets get
`/chat/completions` vs `/v1/chat/completions`; Anthropic targets get
`/messages` vs `/v1/messages`. -/
theorem url_composition (e : String) (c : Option String) (p : TargetProtocolL)
    (name : String) :
    composeUrl (e ++ "/") c p = composeUrl e c p ∧
    composeUrl e (some "/v1/responses") p =
      String.mk (trimEndMatchesSlash e.data) ++
        (if endsWithL "/v1".data (trimEndMatchesSlash e.data) then "/responses"
         else "/v1/responses") ∧
    composeUrl e none .openAI =
      String.mk (trimEndMatchesSlash e.data) ++
        (if endsWithL "/v1".data (trimEndMatchesSlash e.data) then "/chat/completions"
         else "/v1/chat/completions") ∧
    composeUrl e none (.custom name) =
      String.mk (trimEndMatchesSlash e.data) ++
        (if endsWithL "/v1".data (trimEndMatchesSlash e.data) then "/chat/completions"
         else "/v1/chat/completions") ∧
    composeUrl e none .anthropic =
      String.mk (trimEndMatchesSlash e.data) ++
        (if endsWithL "/v1".data (trimEndMatchesSlash e.data) then "/messages"
         else "/v1/messages") := by
  refine ⟨?_, ?_, ?_, ?_, ?_⟩
  · simp [composeUrl, trimEndMatchesSlash, String.data_append, List.reverse_append,
      List.dropWhile]
  · by_cases h : endsWithL "/v1".data (trimEndMatchesSlash e.data) = true <;>
      simp [composeUrl, selectApiPath, h]
  · by_cases h : endsWithL "/v1".data (trimEndMatchesSlash e.data) = true <;>
      simp [composeUrl, selectApiPath, h]
  · by_cases h : endsWithL "/v1".data (trimEndMatchesSlash e.data) = true <;>
      simp [composeUrl, selectApiPath, h]
  · by_cases h : endsWithL "/v1".data (trimEndMatchesSlash e.data) = true <;>
      simp [composeUrl, selectApiPath, h]

/-- The message loop of `openai_to_anthropic` keeps exactly the
`user`/`assistant` messages, in order, translated by `oMsgToA`. -/
theorem oaMsgFold_messages (msgs : List OMessage) :
    ∀ sys acc, (oaMsgFold msgs sys acc).2 =
      acc ++ (msgs.filter fun m => m.role == "user" || m.role == "assistant").map oMsgToA := by
  induction msgs with
  | nil => intro sys acc; simp [oaMsgFold]
  | cons m rest ih =>
    intro sys acc
    by_cases hs : m.role = "system"
    · have hpred : (m.role == "user" || m.role == "assistant") = false := by
        rw [hs]; rfl
      cases hc : m.content with
      | text t => simp [oaMsgFold, hs, hc, ih, List.filter_cons, hpred]
      | array bs => simp [oaMsgFold, hs, hc, ih, List.filter_cons, hpred]
    · by_cases hu : m.role = "user" ∨ m.role = "assistant"
      · have hpred : (m.role == "user" || m.role == "assistant") = true := by
          rcases hu with h | h <;> rw [h] <;> rfl
        simp [oaMsgFold, hs, hu, ih, List.filter_cons, hpred]
      · have hpred : (m.role == "user" || m.role == "assistant") = false := by
          rw [Bool.or_eq_false_iff]
          constructor <;> rw [beq_eq_false_iff_ne] <;> intro h <;>
            exact hu (by simp [h])
        simp [oaMsgFold, hs, hu, ih, List.filter_cons, hpred]

/-- C9: the OpenAI → Anthropic → OpenAI request round trip (both directions
targeting the request's own model) preserves model, temperature, top_p,
stream, any explicitly-set max_tokens, and every text-only `user`/
`assistant` message with role and text unchanged (an absent max_tokens is
not expressible on the Anthropic side, where the field is mandatory, and
comes back as the 1024 default). -/
theorem round_trip_preservation (req : OpenAIRequestL)
    (htext : ∀ m ∈ req.messages, (m.role == "user" || m.role == "assistant") = true →
      ∃ t, m.content = OMessageContent.text t) :
    (roundTripOpenAI req).model = req.model ∧
    (roundTripOpenAI req).temperature = req.temperature ∧
    (roundTripOpenAI req).topP = req.topP ∧
    (roundTripOpenAI req).stream = req.stream ∧
    (∀ n, req.maxTokens = some n → (roundTripOpenAI req).maxTokens = some n) ∧
    (roundTripOpenAI req).messages.filter (fun m => !(m.role == "system")) =
      req.messages.filter (fun m => m.role == "user" || m.role == "assistant") := by
  have hmsgs : (openaiToAnthropic req req.model).messages =
      (req.messages.filter fun m => m.role == "user" || m.role == "assistant").map oMsgToA := by
    simpa using oaMsgFold_messages req.messages none []
  refine ⟨rfl, rfl, rfl, rfl,
    fun n hn => by simp [roundTripOpenAI, anthropicToOpenai, openaiToAnthropic, hn], ?_⟩
  have hBmsgs : (roundTripOpenAI req).messages =
      (match (openaiToAnthropic req req.model).system with
       | some s => [{ role := "system", content := OMessageContent.text s }]
       | none => []) ++
        ((req.messages.filter fun m => m.role == "user" || m.role == "assistant").map
          oMsgToA).map aMsgToO := by
    simp only [roundTripOpenAI, anthropicToOpenai, hmsgs]
  rw [hBmsgs, List.filter_append]
  have hsysPart : ∀ sysv : Option String,
      List.filter (fun m : OMessage => !(m.role == "system"))
        (match sysv with
         | some s => [{ role := "system", content := OMessageContent.text s }]
         | none => []) = [] := by
    intro sysv; cases sysv <;> rfl
  rw [hsysPart _, List.nil_append, List.map_map]
  have hkeep : ∀ b ∈ (req.messages.filter
      fun m => m.role == "user" || m.role == "assistant").map (aMsgToO ∘ oMsgToA),
      (!(b.role == "system")) = true := by
    intro b hb
    obtain ⟨m, hm, rfl⟩ := List.mem_map.mp hb
    have hpred := (List.mem_filter.mp hm).2
    have hrole : ((aMsgToO ∘ oMsgToA) m).role = m.role := rfl
    rw [hrole]
    rcases Bool.or_eq_true_iff.mp hpred with h | h <;> rw [eq_of_beq h] <;> rfl
  rw [List.filter_eq_self.mpr hkeep]
  have hid : ∀ m ∈ req.messages.filter
      (fun m => m.role == "user" || m.role == "assistant"), (aMsgToO ∘ oMsgToA) m = m := by
    intro m hm
    obtain ⟨hmem, hpred⟩ := List.mem_filter.mp hm
    obtain ⟨t, ht⟩ := htext m hmem hpred
    cases m with
    | mk role content =>
      simp only at ht
      subst ht
      rfl
  rw [List.map_congr_left hid]
  simp

theorem reportUsage_models (ctx : CollectorCtx) (st : ColState)
    (h : ReportsModelOk ctx st) : ReportsModelOk ctx (reportUsage ctx st) := by
  unfold reportUsage
  cases hin : st.inputTokens with
  | none => simpa [ReportsModelOk] using h
  | some i =>
    cases hout : st.outputTokens with
    | none => simpa [ReportsModelOk] using h
    | some o =>
      intro e he
      simp only [List.mem_append, List.mem_singleton] at he
      rcases he with he | rfl
      · exact h e he
      · rfl

theorem codexUsage_models (ctx : CollectorCtx) (st : ColState) (j : Json)
    (h : ReportsModelOk ctx st) : ReportsModelOk ctx (codexUsage ctx st j) := by
  simp only [codexUsage]
  repeat' split
  all_goals first
    | exact h
    | exact reportUsage_models ctx _ h

theorem openaiStdUsage_models (ctx : CollectorCtx) (st : ColState) (j : Json)
    (h : ReportsModelOk ctx st) : ReportsModelOk ctx (openaiStdUsage ctx st j) := by
  simp only [openaiStdUsage]
  repeat' split
  all_goals first
    | exact h
    | exact reportUsage_models ctx _ h

theorem extractUsage_models (ctx : CollectorCtx) (st : ColState) (j : Json)
    (h : ReportsModelOk ctx st) : ReportsModelOk ctx (extractUsageFromJson ctx st j) := by
  simp only [extractUsageFromJson]
  repeat' split
  all_goals first
    | exact h
    | exact reportUsage_models ctx _ h
    | exact codexUsage_models ctx _ _ h
    | exact openaiStdUsage_models ctx _ _ h

theorem parseAndProcessSse_models (ctx : CollectorCtx) (st : ColState) (event : List Char)
    (h : ReportsModelOk ctx st) : ReportsModelOk ctx (parseAndProcessSse ctx st event) := by
  simp only [parseAndProcessSse]
  repeat' split
  all_goals first
    | exact h
    | exact extractUsage_models ctx _ _ h

theorem colLoop_models (ctx : CollectorCtx) (fuel : Nat) :
    ∀ st : ColState, ReportsModelOk ctx st → ReportsModelOk ctx (colLoop ctx fuel st) := by
  induction fuel with
  | zero => intro st h; exact h
  | succ fuel ih =>
    intro st h
    simp only [colLoop]
    split
    · exact h
    · exact ih _ (parseAndProcessSse_models ctx _ _ h)

theorem processChunk_models (ctx : CollectorCtx) (st : ColState) (chunk : String)
    (h : ReportsModelOk ctx st) : ReportsModelOk ctx (processChunk ctx st chunk) := by
  simp only [processChunk]
  split
  · exact colLoop_models ctx _ _ h
  · exact colLoop_models ctx _ _ h

theorem foldl_processChunk_models (ctx : CollectorCtx) (chunks : List String) :
    ∀ st : ColState, ReportsModelOk ctx st →
      ReportsModelOk ctx (chunks.foldl (processChunk ctx) st) := by
  induction chunks with
  | nil => intro st h; exact h
  | cons c rest ih =>
    intro st h
    exact ih _ (processChunk_models ctx st c h)

/-- C10: the `model` field of a published UsageEvent differs by pipeline
path: every event the streaming usage collector publishes carries the
upstream RouteConfig's model name, the unary pipeline's event carries the
client's requested model name, and the two coincide exactly when the
route's model equals the requested model. -/
theorem usage_event_model_field (ctx : CollectorCtx) (chunks : List String)
    (requestId userToken requestedModel : String) (cfg : RouteConfigL)
    (inputTokens outputTokens : Int) (e : UsageEventL)
    (he : e ∈ (wrapStreamRun ctx chunks).reports) :
    e.model = ctx.cfg.model ∧
    (mkUnaryUsageEvent requestId userToken requestedModel cfg
      inputTokens outputTokens).model = requestedModel ∧
    (e.model = (mkUnaryUsageEvent requestId userToken requestedModel cfg
      inputTokens outputTokens).model ↔ ctx.cfg.model = requestedModel) := by
  have hstream : ReportsModelOk ctx (wrapStreamRun ctx chunks) :=
    reportUsage_models ctx _
      (foldl_processChunk_models ctx chunks colInit (fun e he => by simp [colInit] at he))
  have h₁ := hstream e he
  exact ⟨h₁, rfl, by rw [h₁]; exact Iff.rfl⟩

/-! ## Witness fixtures and witness theorems -/

theorem cache_entry_invariant_witness :
    entryInv (setEntry 7 3 100 [cfgAnthropic]) ∧
    entryInv (refreshEntry wEntry 7 3) ∧
    (refreshEntry wEntry 7 3).hardExpiresAt = wEntry.hardExpiresAt ∧
    (refreshEntry wEntry 6 3).expiresAt ≤
      (refreshEntry (refreshEntry wEntry 6 3) 7 3).expiresAt ∧
    (refreshEntry (refreshEntry wEntry 6 3) 7 3).expiresAt ≤ wEntry.hardExpiresAt ∧
    cacheGet wMap "user-token" "claude-3" 7 3 =
      (mapInsert wMap (makeKey "user-token" "claude-3") (refreshEntry wEntry 7 3),
       some (refreshEntry wEntry 7 3).configs) :=
  cache_entry_invariant wEntry wMap "user-token" "claude-3" 7 6 7 3 100 [cfgAnthropic]
    ⟨by decide, by decide⟩ (by decide) (by decide) rfl (by decide) (by decide)

theorem remove_config_spec_witness :
    removeConfigC wMap₂ "user-token" "claude-3" cfgAnthropic
      (makeKey "user-token" "claude-3") = some { wEntry₂ with configs := [cfgOpenAI] } :=
  (remove_config_spec wMap₂ "user-token" "claude-3" cfgAnthropic wEntry₂ 7 3
    rfl).2.2.1 (by decide)

theorem round_trip_preservation_witness :
    (roundTripOpenAI wReq).model = wReq.model ∧
    (roundTripOpenAI wReq).maxTokens = some 256 ∧
    (roundTripOpenAI wReq).messages.filter (fun m => !(m.role == "system")) =
      wReq.messages.filter (fun m => m.role == "user" || m.role == "assistant") := by
  have hW : ∀ m ∈ wReq.messages, (m.role == "user" || m.role == "assistant") = true →
      ∃ t, m.content = OMessageContent.text t := by
    intro m hm _
    simp only [wReq, List.mem_cons, List.not_mem_nil, or_false] at hm
    rcases hm with rfl | rfl | rfl <;> exact ⟨_, rfl⟩
  exact ⟨(round_trip_preservation wReq hW).1,
    (round_trip_preservation wReq hW).2.2.2.2.1 256 rfl,
    (round_trip_preservation wReq hW).2.2.2.2.2⟩

theorem usage_event_model_field_witness :
    wEvent.model = ctxAnthropic.cfg.model ∧
    (mkUnaryUsageEvent "rid" "user-token" "gpt-4" cfgOpenAI 1 2).model = "gpt-4" :=
  ⟨(usage_event_model_field ctxAnthropic anthropicUsageChunks "rid" "user-token" "gpt-4"
      cfgOpenAI 1 2 wEvent (by decide)).1,
   (usage_event_model_field ctxAnthropic anthropicUsageChunks "rid" "user-token" "gpt-4"
      cfgOpenAI 1 2 wEvent (by decide)).2.1⟩

end AxonGate
